import Mathlib

/-!
# Verification of the supermarket dashboard data pipeline

Shallow embedding of `src/dashboards.py`: the dataset loader
(`load_data`: `pd.read_csv(path, sep=";", decimal=",")`, `pd.to_datetime(..,
format="%m/%d/%Y")`, `sort_values("Date")`, derived `Month` column), the
month filter (`sidebar_filters`), the five chart data reductions, the
`lru_cache(maxsize=1)` memoization, and the `main` control flow.

Modelling conventions, recorded once here:
* Numeric values are exact rationals (`ℚ`); the Python code computes in
  float64.  All claims under study are about parsing, grouping and summing,
  for which the exact-arithmetic idealization is standard.
* A pandas cell is `Cell`: `na` (NaN/NaT), a parsed number, or a string.
  `read_csv` types each column as a whole: a column in which every non-NA
  field parses as a number (with `decimal=","`) becomes numeric; otherwise
  the column is left as text (`object` dtype) — fields do *not* fail or
  coerce individually.
* The NA marker set is the empty field plus the common pandas defaults
  ("NA", "N/A", "NaN", "nan", "NULL", "null"); the full pandas list is
  longer but no claim depends on the additional markers.
* `df.sort_values("Date")` is modelled by a correct comparison sort
  (`List.insertionSort`) on the date key with NaT last (pandas
  `na_position="last"`).  Only sortedness of the result is used by the
  theorems below.  The *tie order* of pandas' actual default algorithm
  (numpy's introsort, `kind="quicksort"`) is a separate question, settled
  by the faithful translation `npArgQuicksort` at the end of this file.
* `pd.to_datetime(col, format="%m/%d/%Y")` follows CPython `_strptime`
  regexes: month `1[0-2]|0[1-9]|[1-9]`, day `3[01]|[12]\d|0[1-9]|[1-9]`,
  year exactly four digits, full-string match; then calendar validation
  and the pandas nanosecond `Timestamp` range (midnights 1677-09-22 ..
  2262-04-11).  NaN fields become NaT without error.
-/

namespace Dashboards

/-! ## Character and digit primitives -/

/-- Numeric value of a digit character. -/
def digitVal (c : Char) : Nat := c.toNat - '0'.toNat

/-- Value of a digit string read most-significant first. -/
def digitsVal (ds : List Char) : Nat := ds.foldl (fun n c => 10 * n + digitVal c) 0

/-! ## European-format numeric fields (`read_csv` with `sep=";"`, `decimal=","`)

`pd.read_csv(path, sep=";", decimal=",")` converts a field to a number via
the C tokenizer: optional sign, integer digits, optionally a `,` (the
`decimal` character) and fraction digits (at least one digit in total),
optionally a scientific exponent; any other character (including `.` —
no `thousands` separator was passed) makes the conversion fail. -/

/-- Mantissa value: integer digits `ip`, fraction digits `fp`. -/
def euroMant (ip fp : List Char) : ℚ :=
  if fp.length = 0 then (digitsVal ip : ℚ)
  else (digitsVal ip : ℚ) + (digitsVal fp : ℚ) / (10 : ℚ) ^ fp.length

/-- Exponent digits after `e`/`E` and an optional sign; the whole field must
be consumed. -/
def euroExpDigits (m : ℚ) (pos : Bool) (cs : List Char) : Option ℚ :=
  let ds := cs.takeWhile Char.isDigit
  let rest := cs.dropWhile Char.isDigit
  if ds.length = 0 ∨ rest ≠ [] then none
  else some (if pos then m * (10 : ℚ) ^ digitsVal ds else m / (10 : ℚ) ^ digitsVal ds)

/-- Optional scientific exponent. -/
def euroExp (m : ℚ) : List Char → Option ℚ
  | [] => some m
  | c :: r =>
    if c = 'e' ∨ c = 'E' then
      match r with
      | '-' :: r2 => euroExpDigits m false r2
      | '+' :: r2 => euroExpDigits m true r2
      | r2 => euroExpDigits m true r2
    else none

/-- Unsigned part: integer digits, optional `,` plus fraction digits,
optional exponent. -/
def euroBody (cs : List Char) : Option ℚ :=
  let ip := cs.takeWhile Char.isDigit
  let rest := cs.dropWhile Char.isDigit
  match rest with
  | ',' :: r2 =>
    let fp := r2.takeWhile Char.isDigit
    let rest2 := r2.dropWhile Char.isDigit
    if ip.length + fp.length = 0 then none
    else euroExp (euroMant ip fp) rest2
  | r => if ip.length = 0 then none else euroExp (euroMant ip []) r

/-- Signed numeric field in European format (a leading `-` negates, a
leading `+` is skipped, as in the tokenizer's `xstrtod`). -/
def euroScan : List Char → Option ℚ
  | [] => euroBody []
  | c :: r =>
    if c = '-' then (euroBody r).map (fun q => -q)
    else if c = '+' then euroBody r
    else euroBody (c :: r)

/-- Numeric conversion applied by `read_csv` (with `decimal=","`) to one
field. -/
def parseEuroNum (s : String) : Option ℚ := euroScan s.data

/-! ## Dates: `pd.to_datetime(df["Date"], format="%m/%d/%Y")` -/

structure Date where
  year : Nat
  month : Nat
  day : Nat
deriving DecidableEq, Repr

/-- Proleptic Gregorian leap year (as used by `datetime`/numpy). -/
def isLeapYear (y : Nat) : Bool := y % 4 == 0 && (y % 100 != 0 || y % 400 == 0)

def daysInMonth (y m : Nat) : Nat :=
  if m = 2 then (if isLeapYear y then 29 else 28)
  else if m = 4 ∨ m = 6 ∨ m = 9 ∨ m = 11 then 30 else 31

/-- Numeric key whose order on calendar dates is chronological order. -/
def dateRank (d : Date) : Nat := d.year * 10000 + d.month * 100 + d.day

/-- Smallest midnight representable as a nanosecond `pd.Timestamp`
(`Timestamp.min` is 1677-09-21 00:12:43.145224193). -/
def tsMinRank : Nat := 16770922

/-- Largest midnight representable as a nanosecond `pd.Timestamp`
(`Timestamp.max` is 2262-04-11 23:47:16.854775807). -/
def tsMaxRank : Nat := 22620411

/-- `%m` directive: regex `1[0-2]|0[1-9]|[1-9]` (greedy; no observable
backtracking before a `/` literal since the two-digit branches consume a
digit where the literal would need `/`). -/
def scanMonth : List Char → Option (Nat × List Char)
  | [] => none
  | c1 :: rest =>
    match rest with
    | c2 :: rest2 =>
      if c1 = '1' ∧ c2.isDigit ∧ digitVal c2 ≤ 2 then some (10 + digitVal c2, rest2)
      else if c1 = '0' ∧ c2.isDigit ∧ 1 ≤ digitVal c2 then some (digitVal c2, rest2)
      else if c1.isDigit ∧ 1 ≤ digitVal c1 then some (digitVal c1, rest)
      else none
    | [] => if c1.isDigit ∧ 1 ≤ digitVal c1 then some (digitVal c1, []) else none

/-- `%d` directive: regex `3[01]|[12]\d|0[1-9]|[1-9]`. -/
def scanDay : List Char → Option (Nat × List Char)
  | [] => none
  | c1 :: rest =>
    match rest with
    | c2 :: rest2 =>
      if c1 = '3' ∧ c2.isDigit ∧ digitVal c2 ≤ 1 then some (30 + digitVal c2, rest2)
      else if (c1 = '1' ∨ c1 = '2') ∧ c2.isDigit then some (10 * digitVal c1 + digitVal c2, rest2)
      else if c1 = '0' ∧ c2.isDigit ∧ 1 ≤ digitVal c2 then some (digitVal c2, rest2)
      else if c1.isDigit ∧ 1 ≤ digitVal c1 then some (digitVal c1, rest)
      else none
    | [] => if c1.isDigit ∧ 1 ≤ digitVal c1 then some (digitVal c1, []) else none

/-- `%Y` directive: exactly four digits. -/
def scanYear4 : List Char → Option (Nat × List Char)
  | c1 :: c2 :: c3 :: c4 :: rest =>
    if c1.isDigit ∧ c2.isDigit ∧ c3.isDigit ∧ c4.isDigit then
      some (1000 * digitVal c1 + 100 * digitVal c2 + 10 * digitVal c3 + digitVal c4, rest)
    else none
  | _ => none

/-- Strict `%m/%d/%Y` parse of a date field: directive regexes, literal
slashes, the whole string consumed, `datetime` calendar validation, and
the nanosecond `Timestamp` range check performed by `pd.to_datetime`. -/
def parseDateMDY (s : String) : Option Date :=
  match scanMonth s.data with
  | none => none
  | some (m, r1) =>
    match r1 with
    | '/' :: r2 =>
      match scanDay r2 with
      | none => none
      | some (d, r3) =>
        match r3 with
        | '/' :: r4 =>
          match scanYear4 r4 with
          | none => none
          | some (y, r5) =>
            if r5 = [] ∧ 1 ≤ y ∧ 1 ≤ m ∧ m ≤ 12 ∧ 1 ≤ d ∧ d ≤ daysInMonth y m ∧
                tsMinRank ≤ dateRank ⟨y, m, d⟩ ∧ dateRank ⟨y, m, d⟩ ≤ tsMaxRank
            then some ⟨y, m, d⟩ else none
        | _ => none
    | _ => none

/-! ## Cells and `read_csv` column typing -/

/-- One pandas cell after loading: missing (NaN), a number, or text. -/
inductive Cell where
  | na : Cell
  | num : ℚ → Cell
  | str : String → Cell
deriving DecidableEq, Repr

/-- Empty field or a default pandas NA marker (representative subset). -/
def naLike (s : String) : Bool :=
  s = "" || s = "NA" || s = "N/A" || s = "NaN" || s = "nan" || s = "NULL" || s = "null"

/-- `read_csv` types a column as numeric iff every field is NA-like or
parses as a number. -/
def numericCol (fields : List String) : Bool :=
  fields.all fun s => naLike s || (parseEuroNum s).isSome

/-- The cell obtained from a raw field, given whether its column was typed
numeric.  (When `numCol` is accurate the inner `none` branch is
unreachable; it returns the text unchanged.) -/
def cellOf (numCol : Bool) (s : String) : Cell :=
  if naLike s then .na
  else if numCol then
    match parseEuroNum s with
    | some q => .num q
    | none => .str s
  else .str s

/-! ## The loader: `load_data` -/

/-- One raw line of the semicolon-separated source file, restricted to the
six columns the dashboard reads (the real dataset has further columns; the
pipeline never touches them). -/
structure RawRow where
  date : String
  city : String
  productLine : String
  payment : String
  total : String
  rating : String
deriving DecidableEq, Repr

/-- Column typing decided by `read_csv` for the five non-date columns. -/
structure ColFlags where
  city : Bool
  productLine : Bool
  payment : Bool
  total : Bool
  rating : Bool
deriving DecidableEq, Repr

/-- A loaded row: parsed date (`none` = NaT), derived `Month` string, and
the five data cells. -/
structure SalesRecord where
  date : Option Date
  month : String
  city : Cell
  productLine : Cell
  payment : Cell
  total : Cell
  rating : Cell
deriving DecidableEq, Repr

abbrev SalesTable := List SalesRecord

/-- Fatal load failure (`LoadError` of the spec): the file is missing or
unreadable, or `pd.to_datetime(.., format="%m/%d/%Y")` rejects a value. -/
inductive LoadError where
  | fileMissing : LoadError
  | badDate : LoadError
deriving DecidableEq, Repr

/-- `dt.to_period("M").astype(str)`: zero-padded `YYYY-MM` (loader dates
always have four-digit years), and the string `"NaT"` for missing dates. -/
def fmtMonth (y m : Nat) : String :=
  ⟨[Nat.digitChar (y / 1000 % 10), Nat.digitChar (y / 100 % 10),
    Nat.digitChar (y / 10 % 10), Nat.digitChar (y % 10), '-',
    Nat.digitChar (m / 10 % 10), Nat.digitChar (m % 10)]⟩

/-- The derived month key as a pure function of the date field. -/
def monthKey : Option Date → String
  | none => "NaT"
  | some d => fmtMonth d.year d.month

/-- Linear month number of a date; chronological order on month keys is
the order of this number. -/
def monthIdx (d : Date) : Nat := 12 * d.year + d.month

/-- Decoder of a `"YYYY-MM"` month-key string back to its linear month
number (`12 * year + month`); `0` on any other shape.  Used to *state*
chronological order of key strings. -/
def keyIdx (s : String) : Nat :=
  match s.data with
  | [c1, c2, c3, c4, c5, c6, c7] =>
    if c5 = '-' then
      12 * (1000 * digitVal c1 + 100 * digitVal c2 + 10 * digitVal c3 + digitVal c4)
        + (10 * digitVal c6 + digitVal c7)
    else 0
  | _ => 0

/-- `pd.to_datetime` on one field of the `Date` column.  NA fields become
NaT; if the column was typed numeric by `read_csv`, actual numbers are
rejected (`to_datetime` with a string format raises on them); strings must
match `%m/%d/%Y`. -/
def parseDateField (dateColNumeric : Bool) (s : String) : Except LoadError (Option Date) :=
  if naLike s then .ok none
  else if dateColNumeric ∧ (parseEuroNum s).isSome then .error .badDate
  else
    match parseDateMDY s with
    | some d => .ok (some d)
    | none => .error .badDate

/-- `pd.to_datetime` over the whole `Date` column; the first bad value
aborts the load (no partial table). -/
def parseDates (flag : Bool) : List RawRow → Except LoadError (List (Option Date))
  | [] => .ok []
  | r :: rs =>
    match parseDateField flag r.date with
    | .error e => .error e
    | .ok d =>
      match parseDates flag rs with
      | .error e => .error e
      | .ok ds => .ok (d :: ds)

/-- Assemble one loaded record (the `Month` column of the code is derived
after sorting; it is a pure per-row function of the date, so deriving it
at record creation yields the same table). -/
def mkRecord (f : ColFlags) (d : Option Date) (r : RawRow) : SalesRecord :=
  { date := d
    month := monthKey d
    city := cellOf f.city r.city
    productLine := cellOf f.productLine r.productLine
    payment := cellOf f.payment r.payment
    total := cellOf f.total r.total
    rating := cellOf f.rating r.rating }

/-- Sort key for `sort_values("Date")`: chronological, NaT past every real
date (pandas `na_position="last"`). -/
def dateRankOpt : Option Date → Nat
  | none => 100000000
  | some d => dateRank d

/-- Row comparison used by the sort. -/
def recLE (a b : SalesRecord) : Prop := dateRankOpt a.date ≤ dateRankOpt b.date

instance : DecidableRel recLE := fun x y => Nat.decLe (dateRankOpt x.date) (dateRankOpt y.date)

instance : IsTotal SalesRecord recLE := ⟨fun x y => Nat.le_total (dateRankOpt x.date) (dateRankOpt y.date)⟩

instance : IsTrans SalesRecord recLE := ⟨fun _ _ _ h1 h2 => Nat.le_trans h1 h2⟩

/-- The column typing `read_csv` gives the five data columns of a file. -/
def colFlags (rows : List RawRow) : ColFlags :=
  { city := numericCol (rows.map (·.city))
    productLine := numericCol (rows.map (·.productLine))
    payment := numericCol (rows.map (·.payment))
    total := numericCol (rows.map (·.total))
    rating := numericCol (rows.map (·.rating)) }

/-- `load_data`: read and type the columns, parse the dates, sort by date,
derive the month key.  `none` models a missing or unreadable file. -/
def loadTable (file : Option (List RawRow)) : Except LoadError SalesTable :=
  match file with
  | none => .error .fileMissing
  | some rows =>
    match parseDates (numericCol (rows.map (·.date))) rows with
    | .error e => .error e
    | .ok ds => .ok (List.insertionSort recLE (List.zipWith (mkRecord (colFlags rows)) ds rows))

/-! ## Month filter and selector (`sidebar_filters`) -/

/-- `df[df["Month"] == month]`: exact, case-sensitive string equality. -/
def monthFilter (t : SalesTable) (k : String) : SalesTable :=
  t.filter (fun r => r.month == k)

/-- `Series.unique()`: distinct values in order of first appearance. -/
def uniqueFirst {α : Type} [DecidableEq α] : List α → List α
  | [] => []
  | x :: xs => x :: uniqueFirst (xs.filter (fun y => !(y == x)))
  termination_by xs => xs.length
  decreasing_by simp only [List.length_cons]; exact Nat.lt_succ_of_le (List.length_filter_le _ _)

/-- The options offered by the sidebar month selector:
`df["Month"].unique()`. -/
def selectorOptions (t : SalesTable) : List String := uniqueFirst (t.map (·.month))

/-- `sidebar_filters`: the external UI picks one of the offered options and
the table is filtered by it. -/
def sidebarFilter (pick : List String → String) (t : SalesTable) : SalesTable :=
  monthFilter t (pick (selectorOptions t))

/-! ## The five chart reductions -/

/-- Lexicographic (codepoint) comparison, as pandas uses to sort string
group keys. -/
def charListLe : List Char → List Char → Bool
  | [], _ => true
  | _ :: _, [] => false
  | a :: as, b :: bs => if a < b then true else if b < a then false else charListLe as bs

/-- Order on group keys used by `groupby(sort=True)`.  NA keys are dropped
before sorting; mixed numeric/text key columns (which raise in pandas) are
ordered arbitrarily and appear in no claim. -/
def cellLeB : Cell → Cell → Bool
  | .na, _ => true
  | _, .na => false
  | .num a, .num b => a ≤ b
  | .num _, .str _ => true
  | .str _, .num _ => false
  | .str a, .str b => charListLe a.data b.data

def cellLE (a b : Cell) : Prop := cellLeB a b = true

instance : DecidableRel cellLE := fun x y => inferInstanceAs (Decidable (cellLeB x y = true))

/-- Group keys of `groupby(key)`: distinct non-NA values, sorted
(`sort=True`, `dropna=True`). -/
def keysOf (key : SalesRecord → Cell) (t : SalesTable) : List Cell :=
  List.insertionSort cellLE ((uniqueFirst (t.map key)).filter (fun c => !(c == Cell.na)))

/-- The rows of one group. -/
def groupRows (key : SalesRecord → Cell) (t : SalesTable) (k : Cell) : SalesTable :=
  t.filter (fun r => key r == k)

/-- Numeric content of a cell for summation; pandas `sum` skips NaN. -/
def cellValOrZero : Cell → ℚ
  | .num q => q
  | _ => 0

/-- A cell of a well-typed numeric column: a number or NaN (text cells sum
differently in pandas — concatenation — and are outside every claim's
scope). -/
def isNumOrNa : Cell → Bool
  | .str _ => false
  | _ => true

/-- `df["Total"].sum()` (NaN skipped). -/
def sumTotal (t : SalesTable) : ℚ := (t.map (fun r => cellValOrZero r.total)).sum

/-- `plot_revenue_by_day`: the chart receives the per-row
(date, total, city) data unaggregated. -/
def revenueByDay (t : SalesTable) : List (Option Date × Cell × Cell) :=
  t.map fun r => (r.date, r.total, r.city)

/-- Pair-key order for the two-level grouping. -/
def pairLE (a b : Cell × Cell) : Prop :=
  (cellLeB a.1 b.1 && (!(cellLeB b.1 a.1) || cellLeB a.2 b.2)) = true

instance : DecidableRel pairLE := fun x y =>
  inferInstanceAs (Decidable ((cellLeB x.1 y.1 && (!(cellLeB y.1 x.1) || cellLeB x.2 y.2)) = true))

/-- `plot_revenue_by_product`:
`df.groupby(["Product line", "City"], as_index=False)["Total"].sum()`. -/
def revenueByProduct (t : SalesTable) : List ((Cell × Cell) × ℚ) :=
  (List.insertionSort pairLE
      ((uniqueFirst (t.map fun r => (r.productLine, r.city))).filter
        (fun p => !(p.1 == Cell.na) && !(p.2 == Cell.na)))).map
    fun p => (p, sumTotal (t.filter (fun r => r.productLine == p.1 && r.city == p.2)))

/-- `plot_revenue_by_city`:
`df.groupby("City", as_index=False)["Total"].sum()`. -/
def revenueByCity (t : SalesTable) : List (Cell × ℚ) :=
  (keysOf (·.city) t).map fun k => (k, sumTotal (groupRows (·.city) t k))

/-- `plot_revenue_by_payment`: `px.pie(df, values="Total",
names="Payment")` aggregates duplicate names by summing their values. -/
def revenueByPayment (t : SalesTable) : List (Cell × ℚ) :=
  (keysOf (·.payment) t).map fun k => (k, sumTotal (groupRows (·.payment) t k))

/-- The non-NaN ratings of a set of rows. -/
def ratingVals (t : SalesTable) : List ℚ :=
  t.filterMap fun r =>
    match r.rating with
    | .num q => some q
    | _ => none

/-- `plot_rating_by_city`:
`df.groupby("City", as_index=False)["Rating"].mean()`; the mean of a group
whose ratings are all NaN is NaN (`none`), and a group exists only if some
row carries its key. -/
def ratingByCity (t : SalesTable) : List (Cell × Option ℚ) :=
  (keysOf (·.city) t).map fun k =>
    let vs := ratingVals (groupRows (·.city) t k)
    (k, if vs.length = 0 then none else some (vs.sum / (vs.length : ℚ)))

/-! ## Caching (`@lru_cache(maxsize=1)`) and the main flow -/

/-- The file system: a map from paths to raw file contents (`none` =
missing/unreadable). -/
abbrev FileSystem := String → Option (List RawRow)

/-- The single-slot cache of `lru_cache(maxsize=1)`, keyed by path. -/
structure LoadCache where
  slot : Option (String × SalesTable)
deriving DecidableEq, Repr

instance {ε α : Type} [DecidableEq ε] [DecidableEq α] : DecidableEq (Except ε α) := fun a b =>
  match a, b with
  | .ok x, .ok y => decidable_of_iff (x = y) (by simp)
  | .error x, .error y => decidable_of_iff (x = y) (by simp)
  | .ok _, .error _ => isFalse (by simp)
  | .error _, .ok _ => isFalse (by simp)

/-- Result of one `load_data` call: the value (or error), the cache state
after the call, and whether the underlying computation ran (`false` =
cache hit). -/
structure CacheResult where
  res : Except LoadError SalesTable
  state : LoadCache
  computed : Bool
deriving DecidableEq, Repr

/-- One call of the memoized `load_data`.  A hit returns the stored table
without recomputation; a miss computes, and stores the result only on
success (Python's `lru_cache` does not cache raised exceptions). -/
def cachedLoad (fs : FileSystem) (c : LoadCache) (p : String) : CacheResult :=
  match c.slot with
  | some (p0, t) =>
    if p0 = p then ⟨.ok t, c, false⟩
    else
      match loadTable (fs p) with
      | .ok t2 => ⟨.ok t2, ⟨some (p, t2)⟩, true⟩
      | .error e => ⟨.error e, c, true⟩
  | none =>
    match loadTable (fs p) with
    | .ok t2 => ⟨.ok t2, ⟨some (p, t2)⟩, true⟩
    | .error e => ⟨.error e, c, true⟩

/-- The five chart payloads handed to the rendering collaborator. -/
structure Dashboard where
  byDay : List (Option Date × Cell × Cell)
  byProduct : List ((Cell × Cell) × ℚ)
  byCity : List (Cell × ℚ)
  byPayment : List (Cell × ℚ)
  ratingCity : List (Cell × Option ℚ)

/-- `main`: load (a raised `LoadError` propagates and halts before any
aggregation), filter by the picked month, compute the five reductions. -/
def runDashboard (fs : FileSystem) (p : String) (pick : List String → String) :
    Except LoadError Dashboard :=
  match loadTable (fs p) with
  | .error e => .error e
  | .ok t =>
    let tf := sidebarFilter pick t
    .ok ⟨revenueByDay tf, revenueByProduct tf, revenueByCity tf, revenueByPayment tf,
      ratingByCity tf⟩

/-! ## numpy's default argsort (`kind="quicksort"`)

`df.sort_values("Date")` computes its row permutation as
`values.argsort(kind="quicksort")` (the pandas default `kind`).  What
follows is a direct functional translation of numpy's classic argsort
introsort (`npysort` `aquicksort_`/`aheapsort_`): median-of-three Hoare
partition with the pivot parked at `pr-1`, an explicit partition stack
(larger side pushed), a shared depth budget `2*msb(n)` falling back to
heapsort, and insertion sort below `SMALL_QUICKSORT = 15`.  Recursion is
fuel-indexed (the fuel given at the top level strictly exceeds the number
of loop iterations the algorithm can perform, so it never runs out);
out-of-range accesses, which the C code never performs, read index 0.
It is used only to *evaluate* the sort on concrete inputs; the loader
model above relies on sortedness alone, which every `kind` delivers. -/

/-- `npy_get_msb`: position of the most significant bit. -/
def npMsbAux : Nat → Nat → Nat
  | 0, _ => 0
  | fuel + 1, n => if 2 ≤ n then npMsbAux fuel (n / 2) + 1 else 0

def npGetMsb (n : Nat) : Nat := npMsbAux n n

/-- Swap two entries of the index array. -/
def argSwap (a : Array Nat) (i j : Nat) : Array Nat :=
  let x := a.getD i 0
  (a.setD i (a.getD j 0)).setD j x

/-- Key of the index stored at position `i`. -/
def keyAt (v a : Array Nat) (i : Nat) : Nat := v.getD (a.getD i 0) 0

/-- Inner while of the insertion sort: shift larger keys right. -/
def argInsShift (v : Array Nat) (pl vp : Nat) : Nat → Array Nat → Nat → Array Nat × Nat
  | 0, a, pj => (a, pj)
  | fuel + 1, a, pj =>
    if pl < pj ∧ vp < keyAt v a (pj - 1) then
      argInsShift v pl vp fuel (a.setD pj (a.getD (pj - 1) 0)) (pj - 1)
    else (a, pj)

/-- Insertion sort of `a[pl..pr]` by the keys `v` (the small-partition and
base case of the introsort). -/
def argInsLoop (v : Array Nat) (pl pr : Nat) : Nat → Array Nat → Nat → Array Nat
  | 0, a, _ => a
  | fuel + 1, a, pi =>
    if pi ≤ pr then
      let vi := a.getD pi 0
      let vp := v.getD vi 0
      let (a2, pj) := argInsShift v pl vp pi a pi
      argInsLoop v pl pr fuel (a2.setD pj vi) (pi + 1)
    else a

/-- `do ++pi; while (v[a[pi]] < vp)`. -/
def argScanUp (v a : Array Nat) (vp : Nat) : Nat → Nat → Nat
  | 0, pi => pi
  | fuel + 1, pi =>
    if keyAt v a (pi + 1) < vp then argScanUp v a vp fuel (pi + 1) else pi + 1

/-- `do --pj; while (vp < v[a[pj]])`. -/
def argScanDown (v a : Array Nat) (vp : Nat) : Nat → Nat → Nat
  | 0, pj => pj
  | fuel + 1, pj =>
    if vp < keyAt v a (pj - 1) then argScanDown v a vp fuel (pj - 1) else pj - 1

/-- Hoare partition scan: advance both cursors, swap, stop when crossed. -/
def argPartLoop (v : Array Nat) (vp : Nat) : Nat → Array Nat → Nat → Nat → Array Nat × Nat
  | 0, a, pi, _ => (a, pi)
  | fuel + 1, a, pi, pj =>
    let pi2 := argScanUp v a vp (pj + 2) pi
    let pj2 := argScanDown v a vp (pj + 2) pj
    if pi2 ≥ pj2 then (a, pi2)
    else argPartLoop v vp fuel (argSwap a pi2 pj2) pi2 pj2

/-- One quicksort partition step on `[pl, pr]` (caller guarantees
`pr - pl > 15`): median-of-three of `pl`, `pm`, `pr`, pivot parked at
`pr - 1`, Hoare scans, pivot restored at the crossing point `pi`. -/
def argPartitionStep (v : Array Nat) (a0 : Array Nat) (pl pr : Nat) : Array Nat × Nat :=
  let pm := pl + (pr - pl) / 2
  let a1 := if keyAt v a0 pm < keyAt v a0 pl then argSwap a0 pm pl else a0
  let a2 := if keyAt v a1 pr < keyAt v a1 pm then argSwap a1 pr pm else a1
  let a3 := if keyAt v a2 pm < keyAt v a2 pl then argSwap a2 pm pl else a2
  let vp := keyAt v a3 pm
  let a4 := argSwap a3 pm (pr - 1)
  let (a5, pi) := argPartLoop v vp (pr + 2) a4 pl (pr - 1)
  (argSwap a5 pi (pr - 1), pi)

/-- numpy `aheapsort_` sift (1-based positions relative to `pl`);
`tmp` is the index being sifted, `v[tmp]` its key. -/
def hsAt (a : Array Nat) (pl k : Nat) : Nat := a.getD (pl + k - 1) 0

def hsSet (a : Array Nat) (pl k x : Nat) : Array Nat := a.setD (pl + k - 1) x

def hsSift (v : Array Nat) (pl n tmp : Nat) : Nat → Nat → Nat → Array Nat → Array Nat
  | 0, i, _, a => hsSet a pl i tmp
  | fuel + 1, i, j, a =>
    if j ≤ n then
      let j2 := if j < n ∧ v.getD (hsAt a pl j) 0 < v.getD (hsAt a pl (j + 1)) 0 then j + 1 else j
      if v.getD tmp 0 < v.getD (hsAt a pl j2) 0 then
        hsSift v pl n tmp fuel j2 (2 * j2) (hsSet a pl i (hsAt a pl j2))
      else hsSet a pl i tmp
    else hsSet a pl i tmp

/-- Heapify phase: `for (l = n>>1; l > 0; --l)`. -/
def hsBuild (v : Array Nat) (pl n : Nat) : Nat → Array Nat → Array Nat
  | 0, a => a
  | l + 1, a => hsBuild v pl n l (hsSift v pl n (hsAt a pl (l + 1)) (n + 2) (l + 1) (2 * (l + 1)) a)

/-- Extraction phase: repeatedly move the root past the shrinking heap. -/
def hsExtract (v : Array Nat) (pl : Nat) : Nat → Nat → Array Nat → Array Nat
  | 0, _, a => a
  | fuel + 1, n, a =>
    if 1 < n then
      let tmp := hsAt a pl n
      let a2 := hsSet a pl n (hsAt a pl 1)
      hsExtract v pl fuel (n - 1) (hsSift v pl (n - 1) tmp (n + 2) 1 2 a2)
    else a

/-- numpy `aheapsort_` on the slice of length `n` starting at `pl`
(the introsort's depth-exhaustion fallback). -/
def argHeapSort (v a : Array Nat) (pl n : Nat) : Array Nat :=
  hsExtract v pl n n (hsBuild v pl n (n / 2) a)

/-- The introsort driver: partition while the range holds more than
`SMALL_QUICKSORT = 15` entries (post-decrementing the depth budget,
heapsorting once it is exhausted), push the larger side, insertion-sort
small ranges, pop until the stack empties. -/
def argQSLoop (v : Array Nat) : Nat → Array Nat → Nat → Nat → List (Nat × Nat) → Int → Array Nat
  | 0, a, _, _, _, _ => a
  | fuel + 1, a, pl, pr, stack, depth =>
    if 15 < pr - pl then
      if depth < 0 then
        let a2 := argHeapSort v a pl (pr - pl + 1)
        match stack with
        | [] => a2
        | (l, r) :: st => argQSLoop v fuel a2 l r st (depth - 1)
      else
        let (a2, pi) := argPartitionStep v a pl pr
        if pi - pl < pr - pi then
          argQSLoop v fuel a2 pl (pi - 1) ((pi + 1, pr) :: stack) (depth - 1)
        else
          argQSLoop v fuel a2 (pi + 1) pr ((pl, pi - 1) :: stack) (depth - 1)
    else
      let a2 := argInsLoop v pl pr (pr + 1 - pl) a (pl + 1)
      match stack with
      | [] => a2
      | (l, r) :: st => argQSLoop v fuel a2 l r st depth

/-- `np.argsort(v, kind="quicksort")`: the permutation pandas applies to
the rows when sorting by a column with default options. -/
def npArgQuicksort (v : Array Nat) : Array Nat :=
  let n := v.size
  if n = 0 then #[] else
    argQSLoop v (4 * n + 4) (Array.range n) 0 (n - 1) [] (2 * npGetMsb n)

/-! ## The spec's non-null record invariant, and shared sample data -/

/-- The spec's SalesTable invariant: no field of a record is null
(NaT for the date, NaN for the cells). -/
def recordNonNull (r : SalesRecord) : Prop :=
  r.date ≠ none ∧ r.city ≠ Cell.na ∧ r.productLine ≠ Cell.na ∧
    r.payment ≠ Cell.na ∧ r.total ≠ Cell.na ∧ r.rating ≠ Cell.na

instance (r : SalesRecord) : Decidable (recordNonNull r) :=
  inferInstanceAs (Decidable (_ ∧ _ ∧ _ ∧ _ ∧ _ ∧ _))

/-- A small well-formed input file (rows out of date order on purpose). -/
def sampleRows : List RawRow :=
  [⟨"02/01/2019", "CityB", "Food", "Cash", "75", "9"⟩,
   ⟨"01/05/2019", "CityA", "Food", "Cash", "100", "7"⟩,
   ⟨"01/12/2019", "CityA", "Drink", "Card", "50", "8"⟩]

/-- The table the loader produces from `sampleRows`. -/
def sampleTable : SalesTable :=
  [⟨some ⟨2019, 1, 5⟩, "2019-01", .str "CityA", .str "Food", .str "Cash", .num 100, .num 7⟩,
   ⟨some ⟨2019, 1, 12⟩, "2019-01", .str "CityA", .str "Drink", .str "Card", .num 50, .num 8⟩,
   ⟨some ⟨2019, 2, 1⟩, "2019-02", .str "CityB", .str "Food", .str "Cash", .num 75, .num 9⟩]

/-- A file system carrying the sample file under the default path. -/
def sampleFS : FileSystem :=
  fun p => if p = "data/supermarket_sales.csv" then some sampleRows else none

/-- A single-row table used to exhibit a non-empty rating group. -/
def oneRowTable : SalesTable :=
  [⟨some ⟨2019, 1, 5⟩, "2019-01", .str "CityA", .str "Food", .str "Cash", .num 100, .num 7⟩]

/-- The input of the spec's end-to-end scenario (section 8): decimal
totals 100.50, 50.25, 75.00 over two months and two cities. -/
def scenarioRows : List RawRow :=
  [⟨"01/05/2019", "CityA", "Food", "Cash", "100,50", "7"⟩,
   ⟨"01/12/2019", "CityA", "Food", "Cash", "50,25", "8"⟩,
   ⟨"02/01/2019", "CityB", "Food", "Cash", "75,00", "9"⟩]

/-- The table the loader produces from `scenarioRows`. -/
def scenarioTable : SalesTable :=
  [⟨some ⟨2019, 1, 5⟩, "2019-01", .str "CityA", .str "Food", .str "Cash",
    .num (euroMant ['1', '0', '0'] ['5', '0']), .num 7⟩,
   ⟨some ⟨2019, 1, 12⟩, "2019-01", .str "CityA", .str "Food", .str "Cash",
    .num (euroMant ['5', '0'] ['2', '5']), .num 8⟩,
   ⟨some ⟨2019, 2, 1⟩, "2019-02", .str "CityB", .str "Food", .str "Cash",
    .num (euroMant ['7', '5'] ['0', '0']), .num 9⟩]

/-! ## Helper lemmas: `uniqueFirst` -/

theorem mem_uniqueFirst {α : Type} [DecidableEq α] {a : α} :
    ∀ {xs : List α}, a ∈ uniqueFirst xs ↔ a ∈ xs := by
  intro xs
  induction xs using uniqueFirst.induct with
  | case1 => simp [uniqueFirst]
  | case2 x xs ih =>
    rw [uniqueFirst]
    by_cases hax : a = x
    · subst hax; simp
    · simp only [List.mem_cons, ih, List.mem_filter, hax, false_or]
      exact ⟨fun h => h.1, fun h => ⟨h, by simp [hax]⟩⟩

theorem nodup_uniqueFirst {α : Type} [DecidableEq α] :
    ∀ (xs : List α), (uniqueFirst xs).Nodup := by
  intro xs
  induction xs using uniqueFirst.induct with
  | case1 => simp [uniqueFirst]
  | case2 x xs ih =>
    rw [uniqueFirst]
    refine List.Nodup.cons ?_ ih
    intro hx
    have := (mem_uniqueFirst.mp hx)
    simp [List.mem_filter] at this

theorem pairwise_lt_uniqueFirst {α : Type} [DecidableEq α] (f : α → Nat) :
    ∀ (xs : List α), xs.Pairwise (fun a b => f a ≤ f b) →
      (∀ a ∈ xs, ∀ b ∈ xs, f a = f b → a = b) →
      (uniqueFirst xs).Pairwise (fun a b => f a < f b) := by
  intro xs
  induction xs using uniqueFirst.induct with
  | case1 => intro _ _; simp [uniqueFirst]
  | case2 x xs ih =>
    intro hle hinj
    rw [uniqueFirst]
    have hle2 := List.pairwise_cons.mp hle
    refine List.Pairwise.cons ?_ (ih ?_ ?_)
    · intro b hb
      have hbm := mem_uniqueFirst.mp hb
      have hbx : b ∈ xs ∧ ¬(b = x) := by
        simpa [List.mem_filter] using hbm
      have h1 : f x ≤ f b := hle2.1 b hbx.1
      have h2 : f x ≠ f b := by
        intro he
        exact hbx.2 (hinj b (List.mem_cons_of_mem x hbx.1) x (List.mem_cons_self x xs) he.symm)
      omega
    · exact hle2.2.sublist (List.filter_sublist _)
    · intro a ha b hb he
      have ha2 := List.mem_of_mem_filter ha
      have hb2 := List.mem_of_mem_filter hb
      exact hinj a (List.mem_cons_of_mem x ha2) b (List.mem_cons_of_mem x hb2) he

/-! ## Helper lemmas: the loader -/

theorem parseDates_forall₂ {flag : Bool} :
    ∀ {rows : List RawRow} {ds : List (Option Date)}, parseDates flag rows = .ok ds →
      List.Forall₂ (fun d row => parseDateField flag row.date = .ok d) ds rows := by
  intro rows
  induction rows with
  | nil =>
    intro ds h
    simp only [parseDates, Except.ok.injEq] at h
    subst h
    exact .nil
  | cons r rs ih =>
    intro ds h
    cases hd : parseDateField flag r.date with
    | error e =>
      simp only [parseDates, hd] at h
      exact Except.noConfusion h
    | ok d =>
      cases hds : parseDates flag rs with
      | error e =>
        simp only [parseDates, hd, hds] at h
        exact Except.noConfusion h
      | ok ds2 =>
        simp only [parseDates, hd, hds, Except.ok.injEq] at h
        subst h
        exact List.Forall₂.cons hd (ih hds)

theorem mem_zipWith_forall₂ {α β γ : Type} {P : α → β → Prop} {f : α → β → γ} :
    ∀ {as : List α} {bs : List β}, List.Forall₂ P as bs → ∀ {c : γ},
      c ∈ List.zipWith f as bs → ∃ a b, P a b ∧ b ∈ bs ∧ c = f a b := by
  intro as bs h
  induction h with
  | nil => intro c hc; simp at hc
  | cons hab _ ih =>
    intro c hc
    rw [List.zipWith_cons_cons] at hc
    rcases List.mem_cons.mp hc with hc | hc
    · exact ⟨_, _, hab, List.mem_cons_self _ _, hc⟩
    · obtain ⟨a, b, hP, hb, hcf⟩ := ih hc
      exact ⟨a, b, hP, List.mem_cons_of_mem _ hb, hcf⟩

/-- Inversion of a successful load. -/
theorem loadTable_ok_inv {rows : List RawRow} {t : SalesTable}
    (h : loadTable (some rows) = .ok t) :
    ∃ ds, parseDates (numericCol (rows.map (·.date))) rows = .ok ds ∧
      t = List.insertionSort recLE (List.zipWith (mkRecord (colFlags rows)) ds rows) := by
  cases hds : parseDates (numericCol (rows.map (·.date))) rows with
  | error e =>
    simp only [loadTable, hds] at h
    exact Except.noConfusion h
  | ok ds =>
    simp only [loadTable, hds, Except.ok.injEq] at h
    exact ⟨ds, rfl, h.symm⟩

/-- Every loaded table is sorted by the date key (NaT last). -/
theorem loadTable_sorted {file : Option (List RawRow)} {t : SalesTable}
    (h : loadTable file = .ok t) : t.Pairwise recLE := by
  cases file with
  | none => simp [loadTable] at h
  | some rows =>
    obtain ⟨ds, _, ht⟩ := loadTable_ok_inv h
    rw [ht]
    exact List.sorted_insertionSort recLE _

/-- Every loaded record comes from one raw row and its parsed date. -/
theorem mem_loadTable {rows : List RawRow} {t : SalesTable}
    (h : loadTable (some rows) = .ok t) {r : SalesRecord} (hr : r ∈ t) :
    ∃ d row, row ∈ rows ∧
      parseDateField (numericCol (rows.map (·.date))) row.date = .ok d ∧
      r = mkRecord (colFlags rows) d row := by
  obtain ⟨ds, hds, ht⟩ := loadTable_ok_inv h
  have hperm := List.perm_insertionSort recLE (List.zipWith (mkRecord (colFlags rows)) ds rows)
  have hr2 : r ∈ List.zipWith (mkRecord (colFlags rows)) ds rows := by
    rw [ht] at hr
    exact hperm.mem_iff.mp hr
  obtain ⟨d, row, hP, hrow, hc⟩ := mem_zipWith_forall₂ (parseDates_forall₂ hds) hr2
  exact ⟨d, row, hrow, hP, hc⟩

/-- In every loaded table the `Month` column is the derived month key of
the date column. -/
theorem loadTable_month {file : Option (List RawRow)} {t : SalesTable}
    (h : loadTable file = .ok t) {r : SalesRecord} (hr : r ∈ t) :
    r.month = monthKey r.date := by
  cases file with
  | none => simp [loadTable] at h
  | some rows =>
    obtain ⟨d, row, _, _, hc⟩ := mem_loadTable h hr
    subst hc
    rfl

theorem parseDateField_na {flag : Bool} {s : String} (h : naLike s = true) :
    parseDateField flag s = .ok none := by
  simp [parseDateField, h]

theorem parseDateField_ok_some {flag : Bool} {s : String} {d : Date}
    (h : parseDateField flag s = .ok (some d)) : parseDateMDY s = some d := by
  by_cases h1 : naLike s = true
  · simp [parseDateField, h1] at h
  · by_cases h2 : flag = true ∧ (parseEuroNum s).isSome = true
    · simp [parseDateField, h1, h2.1, h2.2] at h
    · cases hm : parseDateMDY s with
      | none => simp [parseDateField, h1, h2, hm] at h
      | some d2 => simpa [parseDateField, h1, h2, hm, Except.ok.injEq] using h

/-- A successfully parsed non-NA date field yields a real date (not NaT). -/
theorem parseDateField_ok_not_na {flag : Bool} {s : String} {d0 : Option Date}
    (h : parseDateField flag s = .ok d0) (hna : ¬naLike s = true) : ∃ d, d0 = some d := by
  by_cases h2 : flag = true ∧ (parseEuroNum s).isSome = true
  · simp [parseDateField, hna, h2.1, h2.2] at h
  · cases hm : parseDateMDY s with
    | none => simp [parseDateField, hna, h2, hm] at h
    | some d2 =>
      simp [parseDateField, hna, h2, hm] at h
      exact ⟨d2, h.symm⟩

/-- A non-NA raw field never yields a NaN cell. -/
theorem cellOf_ne_na {flag : Bool} {s : String} (h : ¬naLike s = true) :
    cellOf flag s ≠ Cell.na := by
  rw [cellOf, if_neg h]
  by_cases hf : flag = true
  · rw [if_pos hf]
    cases hp : parseEuroNum s <;> simp
  · rw [if_neg hf]
    simp

/-! ## Helper lemmas: date bounds -/

theorem digitVal_le_nine {c : Char} (h : c.isDigit = true) : digitVal c ≤ 9 := by
  simp only [Char.isDigit, Bool.and_eq_true, decide_eq_true_eq] at h
  obtain ⟨h1, h2⟩ := h
  have g1 : '0'.toNat ≤ c.toNat := h1
  have g2 : c.toNat ≤ '9'.toNat := h2
  have e1 : '0'.toNat = 48 := rfl
  have e2 : '9'.toNat = 57 := rfl
  rw [digitVal]
  omega

theorem daysInMonth_le (y m : Nat) : daysInMonth y m ≤ 31 := by
  rw [daysInMonth]
  split
  · split <;> omega
  · split <;> omega

/-- Bounds delivered by a successful `%m/%d/%Y` parse: the year range comes
from the `Timestamp` limits, month and day from the directive regexes and
calendar validation. -/
theorem parseDateMDY_bounds {s : String} {d : Date} (h : parseDateMDY s = some d) :
    1677 ≤ d.year ∧ d.year ≤ 2262 ∧ 1 ≤ d.month ∧ d.month ≤ 12 ∧ 1 ≤ d.day ∧ d.day ≤ 31 := by
  rw [parseDateMDY] at h
  split at h
  · exact absurd h (by simp)
  · rename_i m r1 _
    split at h
    · rename_i r2
      split at h
      · exact absurd h (by simp)
      · rename_i dd r3 _
        split at h
        · rename_i r4
          split at h
          · exact absurd h (by simp)
          · rename_i y r5 _
            split at h
            · rename_i hcond
              cases h
              have h31 := daysInMonth_le y m
              simp only [dateRank, tsMinRank, tsMaxRank] at hcond
              obtain ⟨_, hy1, hm1, hm2, hd1, hd2, hr1, hr2⟩ := hcond
              dsimp only
              refine ⟨?_, ?_, hm1, hm2, hd1, by omega⟩ <;> omega
            · exact absurd h (by simp)
        · exact absurd h (by simp)
    · exact absurd h (by simp)

theorem scanMonth_bounds : ∀ {cs : List Char} {m : Nat} {r : List Char},
    scanMonth cs = some (m, r) → 1 ≤ m ∧ m ≤ 12 := by
  intro cs m r h
  cases cs with
  | nil => exact Option.noConfusion h
  | cons c1 rest =>
    cases rest with
    | nil =>
      simp only [scanMonth] at h
      split at h
      · rename_i hc
        obtain ⟨hd1, hv1⟩ := hc
        have h9 := digitVal_le_nine hd1
        cases h
        omega
      · exact Option.noConfusion h
    | cons c2 rest2 =>
      simp only [scanMonth] at h
      split at h
      · rename_i hc
        obtain ⟨_, hd2, hv2⟩ := hc
        cases h
        omega
      · split at h
        · rename_i hc
          obtain ⟨_, hd2, hv2⟩ := hc
          have h9 := digitVal_le_nine hd2
          cases h
          omega
        · split at h
          · rename_i hc
            obtain ⟨hd1, hv1⟩ := hc
            have h9 := digitVal_le_nine hd1
            cases h
            omega
          · exact Option.noConfusion h

/-! ## Helper lemmas: month-key formatting -/

theorem digitVal_digitChar : ∀ k, k < 10 → digitVal (Nat.digitChar k) = k := by decide

/-- Decoding inverts formatting on four-digit years and two-digit
months. -/
theorem keyIdx_fmtMonth {y m : Nat} (hy : y < 10000) (hm : m < 100) :
    keyIdx (fmtMonth y m) = 12 * y + m := by
  have e1 := digitVal_digitChar (y / 1000 % 10) (by omega)
  have e2 := digitVal_digitChar (y / 100 % 10) (by omega)
  have e3 := digitVal_digitChar (y / 10 % 10) (by omega)
  have e4 := digitVal_digitChar (y % 10) (by omega)
  have e5 := digitVal_digitChar (m / 10 % 10) (by omega)
  have e6 := digitVal_digitChar (m % 10) (by omega)
  rw [fmtMonth]
  dsimp only [keyIdx]
  rw [if_pos rfl, e1, e2, e3, e4, e5, e6]
  omega

/-- Bounds of the dates of a loaded table. -/
theorem loadTable_date_bounds {rows : List RawRow} {t : SalesTable}
    (h : loadTable (some rows) = .ok t) {r : SalesRecord} (hr : r ∈ t)
    {d : Date} (hd : r.date = some d) :
    1677 ≤ d.year ∧ d.year ≤ 2262 ∧ 1 ≤ d.month ∧ d.month ≤ 12 ∧ 1 ≤ d.day ∧ d.day ≤ 31 := by
  obtain ⟨d0, row, _, hpf, hc⟩ := mem_loadTable h hr
  subst hc
  dsimp only [mkRecord] at hd
  subst hd
  exact parseDateMDY_bounds (parseDateField_ok_some hpf)

/-- For a loaded record with a real date, the month-key string is the
formatted (year, month) and decodes back to the month number. -/
theorem keyIdx_loaded_month {rows : List RawRow} {t : SalesTable}
    (h : loadTable (some rows) = .ok t) {r : SalesRecord} (hr : r ∈ t)
    {d : Date} (hd : r.date = some d) :
    r.month = fmtMonth d.year d.month ∧ keyIdx r.month = monthIdx d := by
  have hb := loadTable_date_bounds h hr hd
  have hm := loadTable_month h hr
  rw [hd] at hm
  have hfmt : r.month = fmtMonth d.year d.month := hm
  refine ⟨hfmt, ?_⟩
  rw [hfmt, keyIdx_fmtMonth (by omega) (by omega), monthIdx]

/-! ## Helper lemma: grouping by a key partitions a list -/

/-- Splitting a list into its fibres over any covering, duplicate-free key
list and re-joining recovers the list up to permutation. -/
theorem flatten_filters_perm {α κ : Type} [DecidableEq κ] (f : α → κ) :
    ∀ (ks : List κ), ks.Nodup → ∀ (t : List α), (∀ a ∈ t, f a ∈ ks) →
      (List.flatten (ks.map (fun k => t.filter (fun a => f a == k)))).Perm t := by
  intro ks
  induction ks with
  | nil =>
    intro _ t ht
    have : t = [] := List.eq_nil_iff_forall_not_mem.mpr (fun a ha => by simpa using ht a ha)
    subst this
    simp
  | cons k ks ih =>
    intro hnd t ht
    have hknotin : k ∉ ks := (List.nodup_cons.mp hnd).1
    simp only [List.map_cons, List.flatten_cons]
    have hstep : ∀ k2 ∈ ks,
        t.filter (fun a => f a == k2) =
          (t.filter (fun a => !(f a == k))).filter (fun a => f a == k2) := by
      intro k2 hk2
      rw [List.filter_filter]
      refine (List.filter_congr ?_)
      intro a _
      have hk2k : ¬k2 = k := fun h => hknotin (h ▸ hk2)
      by_cases hfa : f a = k2
      · simp [hfa, hk2k]
      · simp [hfa]
    have hmapeq :
        ks.map (fun k2 => t.filter (fun a => f a == k2)) =
          ks.map (fun k2 => (t.filter (fun a => !(f a == k))).filter (fun a => f a == k2)) :=
      List.map_congr_left hstep
    rw [hmapeq]
    have hcov : ∀ a ∈ t.filter (fun a => !(f a == k)), f a ∈ ks := by
      intro a ha
      have h1 := (List.mem_filter.mp ha).1
      have h2 := (List.mem_filter.mp ha).2
      have h3 : f a ≠ k := by simpa using h2
      have := ht a h1
      simp only [List.mem_cons] at this
      exact this.resolve_left h3
    have hperm2 := ih (List.nodup_cons.mp hnd).2 (t.filter (fun a => !(f a == k))) hcov
    exact List.Perm.trans (List.Perm.append_left _ hperm2) (List.filter_append_perm _ t)

/-! ## Helper lemmas: a field cannot be both a number and a date

The numeric tokenizer consumes only signs, digits, the decimal comma and
an exponent; a `%m/%d/%Y` date needs a slash.  Hence a field accepted by
the numeric conversion is always rejected by `to_datetime`. -/

theorem scanMonth_rest_subset : ∀ {cs : List Char} {m : Nat} {r : List Char},
    scanMonth cs = some (m, r) → ∀ {c : Char}, c ∈ r → c ∈ cs := by
  intro cs m r h c hc
  cases cs with
  | nil => exact Option.noConfusion h
  | cons c1 rest =>
    cases rest with
    | nil =>
      simp only [scanMonth] at h
      split at h
      · cases h
        simp at hc
      · exact Option.noConfusion h
    | cons c2 rest2 =>
      simp only [scanMonth] at h
      split at h
      · cases h
        exact List.mem_cons_of_mem _ (List.mem_cons_of_mem _ hc)
      · split at h
        · cases h
          exact List.mem_cons_of_mem _ (List.mem_cons_of_mem _ hc)
        · split at h
          · cases h
            exact List.mem_cons_of_mem _ hc
          · exact Option.noConfusion h

theorem parseDateMDY_has_slash {s : String} {d : Date} (h : parseDateMDY s = some d) :
    '/' ∈ s.data := by
  rw [parseDateMDY] at h
  split at h
  · exact Option.noConfusion h
  · rename_i m r1 hm
    split at h
    · rename_i r2
      exact scanMonth_rest_subset hm (List.mem_cons_self '/' r2)
    · exact Option.noConfusion h

theorem euroExpDigits_no_slash {m : ℚ} {pos : Bool} {cs : List Char} {q : ℚ}
    (h : euroExpDigits m pos cs = some q) : '/' ∉ cs := by
  intro hmem
  simp only [euroExpDigits] at h
  split at h
  · exact Option.noConfusion h
  · rename_i hcond
    push_neg at hcond
    have hrest : cs.dropWhile Char.isDigit = [] := hcond.2
    have hsplit := List.takeWhile_append_dropWhile Char.isDigit cs
    rw [hrest, List.append_nil] at hsplit
    rw [← hsplit] at hmem
    exact absurd (List.mem_takeWhile_imp hmem) (by decide)

theorem euroExp_no_slash {m : ℚ} : ∀ {cs : List Char} {q : ℚ},
    euroExp m cs = some q → '/' ∉ cs := by
  intro cs q h hmem
  cases cs with
  | nil => simp at hmem
  | cons c r =>
    simp only [euroExp] at h
    split at h
    · rename_i hce
      rcases List.mem_cons.mp hmem with hc | hr2
      · rcases hce with h1 | h1 <;> (rw [← hc] at h1; exact absurd h1 (by decide))
      · split at h
        · rename_i r2
          rcases List.mem_cons.mp hr2 with hc2 | hr3
          · exact absurd hc2 (by decide)
          · exact euroExpDigits_no_slash h hr3
        · rename_i r2
          rcases List.mem_cons.mp hr2 with hc2 | hr3
          · exact absurd hc2 (by decide)
          · exact euroExpDigits_no_slash h hr3
        · exact euroExpDigits_no_slash h hr2
    · exact Option.noConfusion h

theorem euroBody_no_slash : ∀ {cs : List Char} {q : ℚ},
    euroBody cs = some q → '/' ∉ cs := by
  intro cs q h hmem
  simp only [euroBody] at h
  have hsplit := List.takeWhile_append_dropWhile Char.isDigit cs
  split at h
  · rename_i r2 hr
    split at h
    · exact Option.noConfusion h
    · have hexp := euroExp_no_slash h
      rw [← hsplit] at hmem
      rcases List.mem_append.mp hmem with h1 | h2
      · exact absurd (List.mem_takeWhile_imp h1) (by decide)
      · rw [hr] at h2
        rcases List.mem_cons.mp h2 with hc | h3
        · exact absurd hc (by decide)
        · have hsplit2 := List.takeWhile_append_dropWhile Char.isDigit r2
          rw [← hsplit2] at h3
          rcases List.mem_append.mp h3 with h4 | h5
          · exact absurd (List.mem_takeWhile_imp h4) (by decide)
          · exact hexp h5
  · split at h
    · exact Option.noConfusion h
    · have hexp := euroExp_no_slash h
      rw [← hsplit] at hmem
      rcases List.mem_append.mp hmem with h1 | h2
      · exact absurd (List.mem_takeWhile_imp h1) (by decide)
      · exact hexp h2

theorem euroScan_no_slash : ∀ {cs : List Char} {q : ℚ},
    euroScan cs = some q → '/' ∉ cs := by
  intro cs q h hmem
  cases cs with
  | nil => simp at hmem
  | cons c r =>
    simp only [euroScan] at h
    by_cases hc1 : c = '-'
    · rw [if_pos hc1] at h
      cases he : euroBody r with
      | none => rw [he] at h; exact Option.noConfusion h
      | some q2 =>
        rcases List.mem_cons.mp hmem with hc | hr2
        · rw [← hc] at hc1; exact absurd hc1 (by decide)
        · exact euroBody_no_slash he hr2
    · rw [if_neg hc1] at h
      by_cases hc2 : c = '+'
      · rw [if_pos hc2] at h
        rcases List.mem_cons.mp hmem with hc | hr2
        · rw [← hc] at hc2; exact absurd hc2 (by decide)
        · exact euroBody_no_slash h hr2
      · rw [if_neg hc2] at h
        exact euroBody_no_slash h hmem

/-- A field the tokenizer reads as a number is never a parseable date. -/
theorem parseEuroNum_isSome_parseDate {s : String}
    (h : (parseEuroNum s).isSome = true) : parseDateMDY s = none := by
  cases hd : parseDateMDY s with
  | none => rfl
  | some d =>
    obtain ⟨q, hq⟩ := Option.isSome_iff_exists.mp h
    exact absurd (parseDateMDY_has_slash hd) (euroScan_no_slash hq)

/-! ## Helper lemmas: exactly when the loader fails -/

theorem parseDateField_error_iff {flag : Bool} {s : String} :
    (∃ e, parseDateField flag s = .error e) ↔
      (¬naLike s = true ∧ parseDateMDY s = none) := by
  constructor
  · rintro ⟨e, he⟩
    by_cases h1 : naLike s = true
    · simp [parseDateField, h1] at he
    · refine ⟨h1, ?_⟩
      by_cases h2 : flag = true ∧ (parseEuroNum s).isSome = true
      · exact parseEuroNum_isSome_parseDate h2.2
      · cases hm : parseDateMDY s with
        | none => rfl
        | some d => simp [parseDateField, h1, h2, hm] at he
  · rintro ⟨h1, h2⟩
    by_cases h3 : flag = true ∧ (parseEuroNum s).isSome = true
    · exact ⟨.badDate, by simp [parseDateField, h1, h3.1, h3.2]⟩
    · exact ⟨.badDate, by simp [parseDateField, h1, h3, h2]⟩

theorem parseDates_error_iff {flag : Bool} : ∀ {rows : List RawRow},
    (∃ e, parseDates flag rows = .error e) ↔
      ∃ row ∈ rows, ¬naLike row.date = true ∧ parseDateMDY row.date = none := by
  intro rows
  induction rows with
  | nil => simp [parseDates]
  | cons r rs ih =>
    constructor
    · rintro ⟨e, he⟩
      cases hd : parseDateField flag r.date with
      | error e2 =>
        exact ⟨r, List.mem_cons_self r rs, parseDateField_error_iff.mp ⟨e2, hd⟩⟩
      | ok d =>
        cases hds : parseDates flag rs with
        | error e2 =>
          obtain ⟨row, hrow, hbad⟩ := ih.mp ⟨e2, hds⟩
          exact ⟨row, List.mem_cons_of_mem _ hrow, hbad⟩
        | ok ds => simp [parseDates, hd, hds] at he
    · rintro ⟨row, hrow, hbad⟩
      rcases List.mem_cons.mp hrow with hr | hr
      · subst hr
        obtain ⟨e, he⟩ := (@parseDateField_error_iff flag row.date).mpr hbad
        exact ⟨e, by simp [parseDates, he]⟩
      · cases hd : parseDateField flag r.date with
        | error e => exact ⟨e, by simp [parseDates, hd]⟩
        | ok d =>
          obtain ⟨e, he⟩ := ih.mpr ⟨row, hr, hbad⟩
          exact ⟨e, by simp [parseDates, hd, he]⟩

theorem loadTable_error_iff (file : Option (List RawRow)) :
    (∃ e, loadTable file = .error e) ↔
      (file = none ∨ ∃ rows, file = some rows ∧
        ∃ row ∈ rows, ¬naLike row.date = true ∧ parseDateMDY row.date = none) := by
  cases file with
  | none =>
    constructor
    · intro _; exact Or.inl rfl
    · intro _; exact ⟨.fileMissing, rfl⟩
  | some rows =>
    constructor
    · rintro ⟨e, he⟩
      cases hds : parseDates (numericCol (rows.map (·.date))) rows with
      | error e2 => exact Or.inr ⟨rows, rfl, parseDates_error_iff.mp ⟨e2, hds⟩⟩
      | ok ds => simp [loadTable, hds] at he
    · rintro (h | ⟨rows2, hr2, hbad⟩)
      · exact Option.noConfusion h
      · cases hr2
        obtain ⟨e, he⟩ :=
          (@parseDates_error_iff (numericCol (rows.map (·.date))) rows).mpr hbad
        exact ⟨e, by simp [loadTable, he]⟩

/-- A load failure aborts `main` before any filtering or aggregation. -/
theorem runDashboard_error {fs : FileSystem} {p : String}
    {pick : List String → String} {e : LoadError}
    (h : loadTable (fs p) = .error e) : runDashboard fs p pick = .error e := by
  simp [runDashboard, h]

/-! ## Helper lemmas: the cache -/

/-- A successful call leaves exactly its own (path, table) pair in the
single cache slot. -/
theorem cachedLoad_ok_slot {fs : FileSystem} {c : LoadCache} {p : String} {t : SalesTable}
    (h : (cachedLoad fs c p).res = .ok t) :
    (cachedLoad fs c p).state = ⟨some (p, t)⟩ := by
  obtain ⟨slot⟩ := c
  cases hs : slot with
  | some pt =>
    obtain ⟨p0, t0⟩ := pt
    by_cases hp : p0 = p
    · subst hp hs
      simp [cachedLoad] at h
      simp [cachedLoad, h]
    · subst hs
      cases hl : loadTable (fs p) with
      | ok t2 =>
        simp only [cachedLoad, if_neg hp, hl, Except.ok.injEq] at h
        simp [cachedLoad, hp, hl, h]
      | error e =>
        simp only [cachedLoad, if_neg hp, hl] at h
        exact Except.noConfusion h
  | none =>
    subst hs
    cases hl : loadTable (fs p) with
    | ok t2 =>
      simp only [cachedLoad, hl, Except.ok.injEq] at h
      simp [cachedLoad, hl, h]
    | error e =>
      simp only [cachedLoad, hl] at h
      exact Except.noConfusion h

/-! ## The claims -/

/-- **C5**: after a successful `load_data(p)`, a second call with the same
path returns the same table without recomputation (a cache hit), and a
call with a different path performs a fresh load — its result is exactly
`loadTable` of that path's current file, never the stale table cached for
`p`. -/
theorem c5_cache_memoization :
    (∀ (fs : FileSystem) (c : LoadCache) (p : String) (t : SalesTable),
      (cachedLoad fs c p).res = .ok t →
        (cachedLoad fs (cachedLoad fs c p).state p).res = .ok t ∧
          (cachedLoad fs (cachedLoad fs c p).state p).computed = false) ∧
    (∀ (fs : FileSystem) (c : LoadCache) (p p2 : String) (t : SalesTable),
      (cachedLoad fs c p).res = .ok t → p2 ≠ p →
        (cachedLoad fs (cachedLoad fs c p).state p2).res = loadTable (fs p2) ∧
          (cachedLoad fs (cachedLoad fs c p).state p2).computed = true) := by
  constructor
  · intro fs c p t h
    rw [cachedLoad_ok_slot h]
    simp [cachedLoad]
  · intro fs c p p2 t h hne
    rw [cachedLoad_ok_slot h]
    have hps : p ≠ p2 := fun h2 => hne h2.symm
    cases hl : loadTable (fs p2) with
    | ok t2 => simp [cachedLoad, hps, hl]
    | error e => simp [cachedLoad, hps, hl]

/-- **C7**: each of the five reductions maps the empty table to an empty
result (no error, no division by zero is possible in particular), and
every group emitted by the rating-mean view is the group of at least one
actual row — empty groups are absent, never present with a value. -/
theorem c7_empty_table_reductions :
    revenueByDay [] = [] ∧ revenueByProduct [] = [] ∧ revenueByCity [] = [] ∧
      revenueByPayment [] = [] ∧ ratingByCity [] = [] ∧
      (∀ (t : SalesTable) (kv : Cell × Option ℚ), kv ∈ ratingByCity t →
        ∃ r ∈ t, r.city = kv.1) := by
  refine ⟨by simp [revenueByDay], by simp [revenueByProduct, uniqueFirst],
    by simp [revenueByCity, keysOf, uniqueFirst],
    by simp [revenueByPayment, keysOf, uniqueFirst],
    by simp [ratingByCity, keysOf, uniqueFirst], ?_⟩
  intro t kv hkv
  obtain ⟨k, hk, hkv2⟩ := List.mem_map.mp hkv
  have h2 : k ∈ (uniqueFirst (t.map (·.city))).filter (fun c => !(c == Cell.na)) :=
    (List.perm_insertionSort cellLE _).mem_iff.mp hk
  have h3 : k ∈ t.map (·.city) := mem_uniqueFirst.mp (List.mem_of_mem_filter h2)
  obtain ⟨r, hr, hrk⟩ := List.mem_map.mp h3
  refine ⟨r, hr, ?_⟩
  rw [← hkv2]
  exact hrk

/-- **C10**: for a loaded table, the month filter keeps a subsequence
(it preserves the relative order of the records it keeps), and since the
loaded table is date-sorted the filtered table is date-sorted too. -/
theorem c10_filter_order {file : Option (List RawRow)} {t : SalesTable}
    (h : loadTable file = .ok t) (k : String) :
    (monthFilter t k).Sublist t ∧ (monthFilter t k).Pairwise recLE :=
  ⟨List.filter_sublist t,
    List.Pairwise.sublist (List.filter_sublist t) (loadTable_sorted h)⟩

/-- **C3**: the month filter returns exactly the records whose month key
equals the given string (exact, case-sensitive equality); an unmatched key
gives the empty table, not an error; filters for different keys are
disjoint; and the filters over the distinct keys present in the table
together recover the whole table. -/
theorem c3_month_filter (t : SalesTable) (k k2 : String) :
    (∀ r : SalesRecord, r ∈ monthFilter t k ↔ (r ∈ t ∧ r.month = k)) ∧
      ((∀ r ∈ t, r.month ≠ k) → monthFilter t k = []) ∧
      (k ≠ k2 → ∀ r : SalesRecord, r ∈ monthFilter t k → r ∉ monthFilter t k2) ∧
      ((selectorOptions t).map (fun k3 => monthFilter t k3)).flatten.Perm t := by
  refine ⟨?_, ?_, ?_, ?_⟩
  · intro r
    simp [monthFilter, List.mem_filter]
  · intro hnone
    rw [monthFilter, List.filter_eq_nil_iff]
    intro r hr
    simpa using hnone r hr
  · intro hne r h1 h2
    have e1 := (List.mem_filter.mp h1).2
    have e2 := (List.mem_filter.mp h2).2
    simp only [beq_iff_eq] at e1 e2
    exact hne (e1 ▸ e2)
  · have hcov : ∀ r ∈ t, r.month ∈ selectorOptions t := by
      intro r hr
      exact mem_uniqueFirst.mpr (List.mem_map_of_mem (·.month) hr)
    exact flatten_filters_perm (fun r : SalesRecord => r.month) (selectorOptions t)
      (nodup_uniqueFirst _) t hcov

/-- **C4**: over any sales table whose records carry a real (non-NaN) city
and a numeric-or-NaN total — the data-model invariants of a SalesTable —
the by-city revenue view conserves revenue: its values sum to the sum of
the `Total` column.  (`isNumOrNa` scopes the statement to well-typed
numeric `Total` columns, where pandas and the rational model agree.) -/
theorem c4_city_sum_conservation (t : SalesTable)
    (hcity : ∀ r ∈ t, r.city ≠ Cell.na)
    (htot : ∀ r ∈ t, isNumOrNa r.total = true) :
    ((revenueByCity t).map (fun kv => kv.2)).sum = sumTotal t := by
  have hfil : (uniqueFirst (t.map (·.city))).filter (fun c => !(c == Cell.na)) =
      uniqueFirst (t.map (·.city)) := by
    rw [List.filter_eq_self]
    intro k hk
    obtain ⟨r, hr, hrk⟩ := List.mem_map.mp (mem_uniqueFirst.mp hk)
    simpa [← hrk] using hcity r hr
  have hperm1 : (keysOf (·.city) t).Perm (uniqueFirst (t.map (·.city))) := by
    rw [keysOf, hfil]
    exact List.perm_insertionSort cellLE _
  have hsum1 : ((revenueByCity t).map (fun kv => kv.2)).sum =
      ((keysOf (·.city) t).map (fun k => sumTotal (groupRows (·.city) t k))).sum := by
    rw [revenueByCity, List.map_map]
    rfl
  have hsum2 :
      ((keysOf (·.city) t).map (fun k => sumTotal (groupRows (·.city) t k))).sum =
        ((uniqueFirst (t.map (·.city))).map
          (fun k => sumTotal (groupRows (·.city) t k))).sum :=
    (hperm1.map _).sum_eq
  have hcov : ∀ r ∈ t, r.city ∈ uniqueFirst (t.map (·.city)) := fun r hr =>
    mem_uniqueFirst.mpr (List.mem_map_of_mem (·.city) hr)
  have hperm2 := flatten_filters_perm (fun r : SalesRecord => r.city)
    (uniqueFirst (t.map (·.city))) (nodup_uniqueFirst _) t hcov
  have hsum3 : sumTotal
      ((uniqueFirst (t.map (·.city))).map
        (fun k => t.filter (fun r => r.city == k))).flatten = sumTotal t := by
    rw [sumTotal, sumTotal]
    exact ((hperm2.map _).sum_eq)
  rw [hsum1, hsum2, ← hsum3, sumTotal, List.map_flatten, List.sum_flatten]
  simp only [List.map_map, Function.comp]
  refine congrArg List.sum (List.map_congr_left ?_)
  intro k hk
  simp [sumTotal, groupRows]

/-- **C8**: the options offered by the month selector are exactly the
distinct month keys present in the loaded table, without duplicates, in
chronological order (the decoded `12*year + month` numbers strictly
increase along the list).  The hypothesis excludes NaT rows, whose key is
the literal string `"NaT"` (see C9). -/
theorem c8_selector_options {rows : List RawRow} {t : SalesTable}
    (h : loadTable (some rows) = .ok t) (hdates : ∀ r ∈ t, r.date ≠ none) :
    (selectorOptions t).Nodup ∧
      (∀ k, k ∈ selectorOptions t ↔ ∃ r ∈ t, r.month = k) ∧
      (selectorOptions t).Pairwise (fun a b => keyIdx a < keyIdx b) := by
  refine ⟨nodup_uniqueFirst _, ?_, ?_⟩
  · intro k
    rw [selectorOptions, mem_uniqueFirst]
    exact List.mem_map
  · rw [selectorOptions]
    apply pairwise_lt_uniqueFirst keyIdx
    · rw [List.pairwise_map]
      refine List.Pairwise.imp_of_mem ?_ (loadTable_sorted h)
      intro r1 r2 hr1 hr2 hle
      cases hd1 : r1.date with
      | none => exact absurd hd1 (hdates r1 hr1)
      | some d1 =>
        cases hd2 : r2.date with
        | none => exact absurd hd2 (hdates r2 hr2)
        | some d2 =>
          obtain ⟨_, hk1⟩ := keyIdx_loaded_month h hr1 hd1
          obtain ⟨_, hk2⟩ := keyIdx_loaded_month h hr2 hd2
          rw [hk1, hk2]
          have hrank : dateRank d1 ≤ dateRank d2 := by
            rw [recLE, hd1, hd2] at hle
            exact hle
          have hb1 := loadTable_date_bounds h hr1 hd1
          have hb2 := loadTable_date_bounds h hr2 hd2
          rw [monthIdx, monthIdx]
          rw [dateRank, dateRank] at hrank
          omega
    · intro a ha b hb he
      obtain ⟨r1, hr1, ha2⟩ := List.mem_map.mp ha
      obtain ⟨r2, hr2, hb2⟩ := List.mem_map.mp hb
      cases hd1 : r1.date with
      | none => exact absurd hd1 (hdates r1 hr1)
      | some d1 =>
        cases hd2 : r2.date with
        | none => exact absurd hd2 (hdates r2 hr2)
        | some d2 =>
          obtain ⟨hf1, hk1⟩ := keyIdx_loaded_month h hr1 hd1
          obtain ⟨hf2, hk2⟩ := keyIdx_loaded_month h hr2 hd2
          have hbd1 := loadTable_date_bounds h hr1 hd1
          have hbd2 := loadTable_date_bounds h hr2 hd2
          rw [← ha2, ← hb2, hk1, hk2, monthIdx, monthIdx] at he
          have hy : d1.year = d2.year ∧ d1.month = d2.month := by omega
          rw [← ha2, ← hb2, hf1, hf2, hy.1, hy.2]

/-- **C1 (counterexample)**: with `decimal=","` but no `thousands`
separator, the field `"1.234,56"` does not convert; its column is left as
text, so the loaded value is the *string* `"1.234,56"`, not the number
1234.56 the claim promises. -/
theorem c1_counterexample :
    loadTable (some [⟨"01/05/2019", "Yangon", "Food", "Cash", "1.234,56", "7"⟩]) =
      .ok [⟨some ⟨2019, 1, 5⟩, "2019-01", .str "Yangon", .str "Food", .str "Cash",
        .str "1.234,56", .num 7⟩] ∧
      Cell.str "1.234,56" ≠ Cell.num 1234.56 :=
  ⟨by decide, by decide⟩

/-- **C1 (amended)**: the loader parses semicolon-separated fields with a
comma decimal separator — `"1234,56"` loads as the number 1234.56 — but a
field with a dot thousands separator such as `"1.234,56"` is *not*
normalized: its column degrades to text and the value stays a string. -/
theorem c1_decimal_amended :
    loadTable (some [⟨"01/05/2019", "Yangon", "Food", "Cash", "1234,56", "7"⟩]) =
      .ok [⟨some ⟨2019, 1, 5⟩, "2019-01", .str "Yangon", .str "Food", .str "Cash",
        .num (euroMant ['1', '2', '3', '4'] ['5', '6']), .num 7⟩] ∧
      euroMant ['1', '2', '3', '4'] ['5', '6'] = 1234.56 ∧
      loadTable (some [⟨"01/05/2019", "Yangon", "Food", "Cash", "1.234,56", "7"⟩]) =
        .ok [⟨some ⟨2019, 1, 5⟩, "2019-01", .str "Yangon", .str "Food", .str "Cash",
          .str "1.234,56", .num 7⟩] := by
  refine ⟨rfl, ?_, by decide⟩
  have h1 : digitsVal ['1', '2', '3', '4'] = 1234 := by decide
  have h2 : digitsVal ['5', '6'] = 56 := by decide
  rw [euroMant]
  norm_num [h1, h2]

/-- **C2**: pandas' default sort (`sort_values` with `kind="quicksort"`,
i.e. numpy's introsort) is *not* stable: on 17 rows all bearing the date
01/05/2019 the argsort permutation it computes is
`[0, 14, 13, 12, 11, 10, 9, 15, 8, 6, 5, 4, 3, 2, 1, 7, 16]`, not the
identity, so equal-date rows do not keep their original order. -/
theorem c2_quicksort_unstable :
    npArgQuicksort (Array.mkArray 17 (dateRank ⟨2019, 1, 5⟩)) =
      #[0, 14, 13, 12, 11, 10, 9, 15, 8, 6, 5, 4, 3, 2, 1, 7, 16] ∧
      npArgQuicksort (Array.mkArray 17 (dateRank ⟨2019, 1, 5⟩)) ≠ Array.range 17 :=
  ⟨by decide, by decide⟩

/-- **C6 (counterexample)**: a file whose `Total` column holds `"12,5"`
and `"abc"` — a non-numeric value in the (per the schema) numeric `Total`
column — loads *successfully*, contradicting the claim that such input
raises a load error; worse, the whole column silently degrades to text,
so even the well-formed `"12,5"` is loaded as a string. -/
theorem c6_counterexample :
    loadTable (some [⟨"01/05/2019", "Yangon", "Food", "Cash", "12,5", "7"⟩,
        ⟨"01/06/2019", "Yangon", "Food", "Cash", "abc", "8"⟩]) =
      .ok [⟨some ⟨2019, 1, 5⟩, "2019-01", .str "Yangon", .str "Food", .str "Cash",
          .str "12,5", .num 7⟩,
        ⟨some ⟨2019, 1, 6⟩, "2019-01", .str "Yangon", .str "Food", .str "Cash",
          .str "abc", .num 8⟩] := by decide

/-- **C6 (amended)**: the loader fails exactly when the file is missing or
unreadable, or some `Date` field is non-NA and not a valid `%m/%d/%Y`
date; on failure no table is produced and `main` halts before any
aggregation or rendering.  (Non-numeric values in numeric columns do
*not* fail — see the counterexample.) -/
theorem c6_load_error_amended :
    (∀ file : Option (List RawRow),
      (∃ e, loadTable file = .error e) ↔
        (file = none ∨ ∃ rows, file = some rows ∧
          ∃ row ∈ rows, ¬naLike row.date = true ∧ parseDateMDY row.date = none)) ∧
    (∀ (fs : FileSystem) (p : String) (pick : List String → String) (e : LoadError),
      loadTable (fs p) = .error e → runDashboard fs p pick = .error e) :=
  ⟨loadTable_error_iff, fun _ _ _ _ h => runDashboard_error h⟩

/-- **C9 (counterexample)**: an empty `City` field loads as NaN (the
loader enforces no non-null invariant): the loaded record violates
`recordNonNull`. -/
theorem c9_counterexample :
    loadTable (some [⟨"01/05/2019", "", "Food", "Cash", "10", "7"⟩]) =
      .ok [⟨some ⟨2019, 1, 5⟩, "2019-01", Cell.na, .str "Food", .str "Cash",
        .num 10, .num 7⟩] ∧
      ¬recordNonNull ⟨some ⟨2019, 1, 5⟩, "2019-01", Cell.na, .str "Food", .str "Cash",
        .num 10, .num 7⟩ :=
  ⟨by decide, by decide⟩

/-- **C9 (amended)**: records of a loaded table are fully non-null
*provided* every raw field of the file is non-NA; the loader propagates
NA inputs into null fields rather than rejecting them. -/
theorem c9_nonnull_amended {rows : List RawRow} {t : SalesTable}
    (h : loadTable (some rows) = .ok t)
    (hraw : ∀ row ∈ rows, ¬naLike row.date = true ∧ ¬naLike row.city = true ∧
      ¬naLike row.productLine = true ∧ ¬naLike row.payment = true ∧
      ¬naLike row.total = true ∧ ¬naLike row.rating = true) :
    ∀ r ∈ t, recordNonNull r := by
  intro r hr
  obtain ⟨d0, row, hrow, hpf, hc⟩ := mem_loadTable h hr
  obtain ⟨hna1, hna2, hna3, hna4, hna5, hna6⟩ := hraw row hrow
  subst hc
  obtain ⟨d, hd⟩ := parseDateField_ok_not_na hpf hna1
  subst hd
  exact ⟨by simp [mkRecord], cellOf_ne_na hna2, cellOf_ne_na hna3, cellOf_ne_na hna4,
    cellOf_ne_na hna5, cellOf_ne_na hna6⟩

/-- The spec's end-to-end scenario, replayed against the embedding: the
three rows load to two month keys `["2019-01", "2019-02"]`; filtering on
`"2019-01"` keeps 2 rows; `revenueByCity` of that subset is
`{CityA: 150.75}`. -/
theorem spec_scenario_monthly_revenue :
    loadTable (some scenarioRows) = .ok scenarioTable ∧
      selectorOptions scenarioTable = ["2019-01", "2019-02"] ∧
      (monthFilter scenarioTable "2019-01").length = 2 ∧
      revenueByCity (monthFilter scenarioTable "2019-01") = [(.str "CityA", 150.75)] := by
  refine ⟨rfl, ?_, rfl, ?_⟩
  · simp [selectorOptions, scenarioTable, uniqueFirst]
  · have h1 : digitsVal ['1', '0', '0'] = 100 := by decide
    have h2 : digitsVal ['5', '0'] = 50 := by decide
    have h3 : digitsVal ['2', '5'] = 25 := by decide
    simp [revenueByCity, keysOf, uniqueFirst, groupRows, monthFilter, scenarioTable, sumTotal,
      List.insertionSort, cellValOrZero]
    rw [euroMant, euroMant]
    norm_num [h1, h2, h3]

/-! ## Witnesses -/

theorem c3_witness :
    (∀ r ∈ sampleTable, r.month ≠ "2019-03") ∧ monthFilter sampleTable "2019-03" = [] :=
  ⟨by decide, (c3_month_filter sampleTable "2019-03" "2019-01").2.1 (by decide)⟩

theorem c4_witness :
    (∀ r ∈ sampleTable, r.city ≠ Cell.na) ∧ (∀ r ∈ sampleTable, isNumOrNa r.total = true) ∧
      ((revenueByCity sampleTable).map (fun kv => kv.2)).sum = sumTotal sampleTable :=
  ⟨by decide, by decide, c4_city_sum_conservation sampleTable (by decide) (by decide)⟩

theorem c5_witness :
    (cachedLoad sampleFS ⟨none⟩ "data/supermarket_sales.csv").res = .ok sampleTable ∧
      (cachedLoad sampleFS (cachedLoad sampleFS ⟨none⟩ "data/supermarket_sales.csv").state
        "data/supermarket_sales.csv").res = .ok sampleTable ∧
      (cachedLoad sampleFS (cachedLoad sampleFS ⟨none⟩ "data/supermarket_sales.csv").state
        "data/supermarket_sales.csv").computed = false ∧
      (cachedLoad sampleFS (cachedLoad sampleFS ⟨none⟩ "data/supermarket_sales.csv").state
        "other.csv").res = loadTable (sampleFS "other.csv") :=
  ⟨by decide,
    (c5_cache_memoization.1 sampleFS ⟨none⟩ "data/supermarket_sales.csv" sampleTable
      (by decide)).1,
    (c5_cache_memoization.1 sampleFS ⟨none⟩ "data/supermarket_sales.csv" sampleTable
      (by decide)).2,
    (c5_cache_memoization.2 sampleFS ⟨none⟩ "data/supermarket_sales.csv" "other.csv"
      sampleTable (by decide) (by decide)).1⟩

theorem c6_witness :
    (∃ e, loadTable (sampleFS "missing.csv") = .error e) ∧
      runDashboard sampleFS "missing.csv" (fun _ => "2019-01") = .error LoadError.fileMissing :=
  ⟨(c6_load_error_amended.1 (sampleFS "missing.csv")).mpr (Or.inl (by decide)),
    c6_load_error_amended.2 sampleFS "missing.csv" (fun _ => "2019-01") LoadError.fileMissing
      (by decide)⟩

theorem c7_witness :
    (Cell.str "CityA", some (7 : ℚ)) ∈ ratingByCity oneRowTable ∧
      ∃ r ∈ oneRowTable, r.city = (Cell.str "CityA", some (7 : ℚ)).1 := by
  have hmem : (Cell.str "CityA", some (7 : ℚ)) ∈ ratingByCity oneRowTable := by
    simp [ratingByCity, keysOf, uniqueFirst, groupRows, ratingVals, oneRowTable,
      List.insertionSort]
  exact ⟨hmem, c7_empty_table_reductions.2.2.2.2.2 oneRowTable _ hmem⟩

theorem c8_witness :
    loadTable (some sampleRows) = .ok sampleTable ∧ (∀ r ∈ sampleTable, r.date ≠ none) ∧
      (selectorOptions sampleTable).Pairwise (fun a b => keyIdx a < keyIdx b) :=
  ⟨by decide, by decide, (@c8_selector_options sampleRows sampleTable (by decide) (by decide)).2.2⟩

theorem c9_witness :
    loadTable (some sampleRows) = .ok sampleTable ∧
      (∀ row ∈ sampleRows, ¬naLike row.date = true ∧ ¬naLike row.city = true ∧
        ¬naLike row.productLine = true ∧ ¬naLike row.payment = true ∧
        ¬naLike row.total = true ∧ ¬naLike row.rating = true) ∧
      ∀ r ∈ sampleTable, recordNonNull r :=
  ⟨by decide, by decide, @c9_nonnull_amended sampleRows sampleTable (by decide) (by decide)⟩

theorem c10_witness :
    loadTable (some sampleRows) = .ok sampleTable ∧
      (monthFilter sampleTable "2019-01").Sublist sampleTable ∧
      (monthFilter sampleTable "2019-01").Pairwise recLE :=
  ⟨by decide, @c10_filter_order (some sampleRows) sampleTable (by decide) "2019-01"⟩

end Dashboards
